import Mathlib

/-!
Verification of the multiplayer snake game server.

The definitions below are a shallow embedding of the server's game logic
(`src/unnamed/part_001`, whose tick engine, message handler, collision
check and food generator agree with `src/server.js` except where noted in
the individual doc comments).  JavaScript numbers are modelled as `Int`,
the `players` object as a list of `Player` records in insertion order
(object key = `Player.id`), and every call to `Math.random()`-derived
helpers is made explicit: random grid positions come from an oracle
stream `rnd : Nat → Pos` threaded by an index, and the per-tick food
refresh coin toss is an explicit `Bool` argument.
-/

namespace Snake

/-- `GRID_SIZE` constant (25 in `src/server.js` and `src/unnamed/part_001`). -/
def GRID_SIZE : Int := 25

/-- `FOOD_SCORE` constant, the score reward per food (`src/unnamed/part_001`,
line 11; `src/server.js` inlines the value 10 instead). -/
def FOOD_SCORE : Nat := 1

/-- A grid cell: JS `{x, y}` with component-wise equality. -/
structure Pos where
  x : Int
  y : Int
deriving DecidableEq, Repr

/-- The four heading strings `'up' | 'down' | 'left' | 'right'`. -/
inductive Direction where
  | up
  | down
  | left
  | right
deriving DecidableEq, Repr

/-- A player record as created by the connection handler
(`src/unnamed/part_001`, lines 58-68; the `ws` transport handle is not part
of the game state and is omitted). -/
structure Player where
  id : String
  name : String
  snake : List Pos
  direction : Direction
  pendingDirection : Option Direction
  score : Nat
  color : String
  alive : Bool
deriving DecidableEq, Repr

/-- The mutable world: `gameState.players` (insertion-ordered) and
`gameState.food` (nullable in `src/unnamed/part_001`). -/
structure GameState where
  players : List Player
  food : Option Pos
deriving DecidableEq, Repr

/-- The occupancy test inside `generateFood` (`src/unnamed/part_001`,
lines 345-347; identical in `src/server.js`, lines 235-236): a candidate
cell is occupied when ANY segment of ANY player's snake (alive or not)
covers it. -/
def positionOccupied (players : List Player) (food : Pos) : Bool :=
  players.any fun player =>
    player.snake.any fun segment => segment.x == food.x && segment.y == food.y

/-- The retry loop of `generateFood` (`src/unnamed/part_001`, lines
340-352), with the remaining attempts as structural fuel: the JS loop
draws a candidate, increments `attempts`, and stops when the candidate is
free or `attempts >= maxAttempts`.  `fuel = maxAttempts - attempts` after
the draw, so the candidate drawn with `fuel = 0` (attempt number 100) is
returned unconditionally.  Returns the food and the advanced oracle
index. -/
def generateFoodAux (players : List Player) (rnd : Nat → Pos) (k : Nat) :
    Nat → Pos × Nat
  | 0 => (rnd k, k + 1)
  | fuel + 1 =>
    let food := rnd k
    if positionOccupied players food then generateFoodAux players rnd (k + 1) fuel
    else (food, k + 1)

/-- `generateFood` (`src/unnamed/part_001`, lines 335-355): bounded random
search with `maxAttempts = 100`.  (`src/server.js`, lines 231-239, has the
same loop but with no attempt bound.) -/
def generateFood (players : List Player) (rnd : Nat → Pos) (k : Nat) : Pos × Nat :=
  generateFoodAux players rnd k 99

/-- The head-shift-and-wrap computation of `movePlayer`
(`src/unnamed/part_001`, lines 175-187; identical in `src/server.js`,
lines 129-141): copy the head, shift it one cell in the heading, then set
`x = (x + GRID_SIZE) % GRID_SIZE` and likewise for `y`.  On `Int`, Lean's
`%` is euclidean mod, which agrees with the JS `%` here because the left
operand is `≥ GRID_SIZE - 1 ≥ 0` for every in-range coordinate. -/
def nextHead (head : Pos) (direction : Direction) : Pos :=
  let moved : Pos :=
    match direction with
    | .up => { head with y := head.y - 1 }
    | .down => { head with y := head.y + 1 }
    | .left => { head with x := head.x - 1 }
    | .right => { head with x := head.x + 1 }
  { x := (moved.x + GRID_SIZE) % GRID_SIZE, y := (moved.y + GRID_SIZE) % GRID_SIZE }

/-- `movePlayer` (`src/unnamed/part_001`, lines 172-212) for one player.
`done` and `rest` are the players already moved this tick and those not
yet moved: `generateFood` reads the whole mutated `gameState.players`,
which at call time is `done ++ [p'] ++ rest` with `p'` the eater carrying
its freshly unshifted head (the tail is only popped in the non-eating
branch).  Returns the updated player, the current food and the advanced
oracle index.  The `[]` head case is unreachable (snake length ≥ 1 by
construction) and returns the player unchanged.  The score side channel
(`scoreUpdate` unicast) is transport, not state, and is omitted. -/
def movePlayer (done rest : List Player) (rnd : Nat → Pos) (food : Option Pos)
    (k : Nat) (p : Player) : Player × Option Pos × Nat :=
  if !p.alive then (p, food, k)
  else
    match p.snake with
    | [] => (p, food, k)
    | head :: _ =>
      let h := nextHead head p.direction
      let snake1 := h :: p.snake
      match food with
      | some f =>
        if h = f then
          let p' := { p with snake := snake1, score := p.score + FOOD_SCORE }
          let (nf, k') := generateFood (done ++ p' :: rest) rnd k
          (p', some nf, k')
        else ({ p with snake := snake1.dropLast }, food, k)
      | none => ({ p with snake := snake1.dropLast }, food, k)

/-- The `forEach(movePlayer)` pass of the tick (`src/unnamed/part_001`,
line 161), threading the food and the oracle index through the players in
order; `done` accumulates the already-moved players. -/
def moveAll (rnd : Nat → Pos) : List Player → List Player → Option Pos → Nat →
    List Player × Option Pos × Nat
  | done, [], food, k => (done, food, k)
  | done, p :: rest, food, k =>
    let r := movePlayer done rest rnd food k p
    moveAll rnd (done ++ [r.1]) rest r.2.1 r.2.2

/-- One entry of the `allSegments` array built by `checkCollisions`
(`src/unnamed/part_001`, lines 220-227). -/
structure Segment where
  x : Int
  y : Int
  playerId : String
  isHead : Bool
deriving DecidableEq, Repr

/-- The obstacle set of `checkCollisions` (`src/unnamed/part_001`, lines
215-229): every segment of every ALIVE player's snake, tagged with the
owner's id and whether it is that snake's current head (index 0). -/
def allSegments (players : List Player) : List Segment :=
  (players.filter fun player => player.alive).flatMap fun player =>
    player.snake.enum.map fun seg =>
      { x := seg.2.x, y := seg.2.y, playerId := player.id, isHead := seg.1 == 0 }

/-- The per-player collision test of `checkCollisions`
(`src/unnamed/part_001`, lines 232-252): a dead player is skipped; an
alive player dies when some segment of the obstacle set covers its head
and is not its own current head.  The `gameOver` unicast is transport and
omitted.  An empty snake (unreachable) matches no segment, as in JS where
`head` would be `undefined`. -/
def collidePlayer (segs : List Segment) (p : Player) : Player :=
  if !p.alive then p
  else
    match p.snake with
    | [] => p
    | head :: _ =>
      if segs.any fun s =>
          s.x == head.x && s.y == head.y && (s.playerId != p.id || !s.isHead)
      then { p with alive := false }
      else p

/-- `checkCollisions` (`src/unnamed/part_001`, lines 214-253): build the
obstacle set once from the alive snakes, then test every player against
it.  (`src/server.js`, lines 154-180, additionally re-pushes a dying
player's segments without an owner id; those cells are already present in
the set from its alive owner, so the outcome is the same.) -/
def checkCollisions (players : List Player) : List Player :=
  players.map (collidePlayer (allSegments players))

/-- The direction-commit pass of `updateGame` (`src/unnamed/part_001`,
lines 153-158; identical in `src/server.js`, lines 106-111): every alive
player with a pending direction commits it and the buffer is cleared.
Neither file checks for reversal here. -/
def commitDirections (players : List Player) : List Player :=
  players.map fun player =>
    match player.pendingDirection with
    | some d => if player.alive then { player with direction := d, pendingDirection := none } else player
    | none => player

/-- `updateGame` (`src/unnamed/part_001`, lines 151-170): commit buffered
directions, move all snakes (food and oracle index threaded through),
resolve collisions, then regenerate food when it is absent or the
per-tick refresh coin (`Math.random() < 0.02`, passed in as `refresh`)
comes up.  (`src/server.js`, lines 104-124, is the same without the final
refresh step.) -/
def updateGame (st : GameState) (rnd : Nat → Pos) (k : Nat) (refresh : Bool) :
    GameState :=
  let players1 := commitDirections st.players
  let m := moveAll rnd [] players1 st.food k
  let players3 := checkCollisions m.1
  let food3 :=
    if m.2.1.isNone || refresh then some (generateFood players3 rnd m.2.2).1
    else m.2.1
  { players := players3, food := food3 }

/-- A parsed inbound client message.  `unknown` stands for any
well-formed JSON whose `type` is neither `directionChange` nor
`setName`; an unparseable payload is `none` at the call site. -/
inductive ClientMessage where
  | directionChange (direction : Direction)
  | setName (name : String)
  | unknown
deriving DecidableEq, Repr

/-- The `message` event handler of `src/unnamed/part_001` (lines 86-109).
The whole JS body is inside `try/catch`, so an unparseable payload
(`JSON.parse` throws) leaves the state untouched, modelled by the `none`
branch; an unknown `type` falls through both `if`s.  A `directionChange`
stores the requested heading into `pendingDirection` only when it is not
the 180-degree reverse of the current heading (the four-clause guard,
lines 93-98); a `setName` truncates the name to 15 characters.
(`src/server.js`, lines 68-78, has no `try/catch` and no reversal guard.) -/
def wsOnMessage (parsed : Option ClientMessage) (playerId : String)
    (st : GameState) : GameState :=
  match parsed with
  | none => st
  | some (.directionChange d) =>
    { st with
      players := st.players.map fun p =>
        if p.id = playerId then
          let currentDirection := p.direction
          if !(currentDirection == .up && d == .down) &&
              !(currentDirection == .down && d == .up) &&
              !(currentDirection == .left && d == .right) &&
              !(currentDirection == .right && d == .left)
          then { p with pendingDirection := some d }
          else p
        else p }
  | some (.setName n) =>
    { st with
      players := st.players.map fun p =>
        if p.id = playerId then { p with name := n.take 15 } else p }
  | some .unknown => st

/-- The player record built on connection (`src/unnamed/part_001`, lines
58-68): fresh id, population-derived display name, a single-cell snake at
a random position, random heading, no pending heading, zero score, random
palette color, alive. -/
def initPlayer (playerId : String) (playerCount : Nat) (startPos : Pos)
    (startDir : Direction) (color : String) : Player :=
  { id := playerId
    name := "Player " ++ toString (playerCount + 1)
    snake := [startPos]
    direction := startDir
    pendingDirection := none
    score := 0
    color := color
    alive := true }

/-- One entry of the client-facing projection (`src/unnamed/part_001`,
lines 312-316): only the snake body, the color and the alive flag. -/
structure ClientPlayer where
  snake : List Pos
  color : String
  alive : Bool
deriving DecidableEq, Repr

/-- The client-facing world view returned by `getClientGameState`. -/
structure ClientView where
  food : Option Pos
  players : List (String × ClientPlayer)
deriving DecidableEq, Repr

/-- `getClientGameState` (`src/unnamed/part_001`, lines 307-321; named
`sanitizeGameState` in `src/server.js`, lines 195-209): the food plus a
`reduce` over the player entries that keeps, for every player other than
the optionally excluded one, only `{snake, color, alive}`.  A missing
`excludePlayerId` (JS `undefined`) is `none`, which excludes nobody. -/
def getClientGameState (st : GameState) (excludePlayerId : Option String) :
    ClientView :=
  { food := st.food
    players :=
      st.players.foldl
        (fun acc p =>
          if some p.id ≠ excludePlayerId then
            acc ++ [(p.id, { snake := p.snake, color := p.color, alive := p.alive })]
          else acc)
        [] }

/-- The reverse of a heading, as the spec's phrase "exact reverse of the
current heading" reads; used only to state claims. -/
def reverseDir : Direction → Direction
  | .up => .down
  | .down => .up
  | .left => .right
  | .right => .left

/-- Modelled from the spec: the claim's version of the food generator,
whose words reject a candidate only when it is "occupied by a living
snake".  Identical to `generateFoodAux`/`generateFood` except that the
occupancy test skips players with `alive = false`.  Used only to compare
against the implementation. -/
def positionOccupiedAliveOnly (players : List Player) (food : Pos) : Bool :=
  players.any fun player =>
    player.alive && player.snake.any fun segment =>
      segment.x == food.x && segment.y == food.y

/-- Modelled from the spec: the bounded retry loop with the claim's
living-snakes-only occupancy test. -/
def generateFoodClaimAux (players : List Player) (rnd : Nat → Pos) (k : Nat) :
    Nat → Pos × Nat
  | 0 => (rnd k, k + 1)
  | fuel + 1 =>
    let food := rnd k
    if positionOccupiedAliveOnly players food then
      generateFoodClaimAux players rnd (k + 1) fuel
    else (food, k + 1)

/-- Modelled from the spec: `generateFood` as the claim describes it. -/
def generateFoodClaim (players : List Player) (rnd : Nat → Pos) (k : Nat) :
    Pos × Nat :=
  generateFoodClaimAux players rnd k 99

end Snake

namespace Snake

/-! ### Helper lemmas about the embedded operations -/

/-- The claim-side shift of one cell in a heading. -/
def headingDelta : Direction → Int × Int
  | .up => (0, -1)
  | .down => (0, 1)
  | .left => (-1, 0)
  | .right => (1, 0)

lemma movePlayer_fst_of_not_alive (done rest : List Player) (rnd : Nat → Pos)
    (food : Option Pos) (k : Nat) (p : Player) (h : p.alive = false) :
    (movePlayer done rest rnd food k p).1 = p := by
  simp [movePlayer, h]

lemma movePlayer_fst_of_alive (done rest : List Player) (rnd : Nat → Pos)
    (food : Option Pos) (k : Nat) (p : Player) (hd : Pos) (tl : List Pos)
    (halive : p.alive = true) (hsnake : p.snake = hd :: tl) :
    (movePlayer done rest rnd food k p).1 =
      if food = some (nextHead hd p.direction) then
        { p with snake := nextHead hd p.direction :: p.snake,
                 score := p.score + FOOD_SCORE }
      else
        { p with snake := (nextHead hd p.direction :: p.snake).dropLast } := by
  unfold movePlayer
  rw [hsnake]
  simp only [halive, Bool.not_true, Bool.false_eq_true, if_false]
  cases food with
  | none => simp [hsnake]
  | some f =>
    by_cases hf : nextHead hd p.direction = f
    · subst hf
      simp [hsnake]
    · simp [hsnake, hf, Ne.symm hf, fun h : some f = some (nextHead hd p.direction) =>
        hf (Option.some.inj h).symm]

end Snake

namespace Snake

/-- **C4.** For every alive player, movement computes the new head as the
current head shifted by one cell in the committed heading with both
coordinates taken modulo `gridSize`. -/
theorem c4_movement_toroidal (done rest : List Player) (rnd : Nat → Pos)
    (food : Option Pos) (k : Nat) (p : Player) (hd : Pos) (tl : List Pos)
    (halive : p.alive = true) (hsnake : p.snake = hd :: tl) :
    (movePlayer done rest rnd food k p).1.snake.head? =
      some { x := (hd.x + (headingDelta p.direction).1) % GRID_SIZE,
             y := (hd.y + (headingDelta p.direction).2) % GRID_SIZE } := by
  rw [movePlayer_fst_of_alive done rest rnd food k p hd tl halive hsnake]
  have hhead : ∀ q : Player, q.snake = hd :: tl →
      (nextHead hd p.direction :: q.snake).dropLast.head? =
        some (nextHead hd p.direction) := by
    intro q hq
    rw [hq]
    rfl
  have hval : nextHead hd p.direction =
      { x := (hd.x + (headingDelta p.direction).1) % GRID_SIZE,
        y := (hd.y + (headingDelta p.direction).2) % GRID_SIZE } := by
    cases hdir : p.direction <;>
      simp only [nextHead, headingDelta, GRID_SIZE] <;>
      refine congrArg₂ Pos.mk ?_ ?_ <;> omega
  split
  · rw [← hval]
    rfl
  · rw [← hval]
    exact hhead _ hsnake

/-- Concrete input for the C4 witness. -/
def pW4 : Player :=
  { id := "w", name := "P", snake := [⟨24, 3⟩], direction := .right,
    pendingDirection := none, score := 0, color := "c", alive := true }

/-- Constant position oracle used by several witnesses. -/
def posOracle0 : Nat → Pos := fun _ => ⟨0, 0⟩

/-- Witness for C4: a snake at `x = gridSize - 1 = 24` heading right ends
at `x = 0`. -/
theorem c4_movement_toroidal_witness :
    pW4.alive = true ∧ pW4.snake = [⟨24, 3⟩] ∧
      (movePlayer [] [] posOracle0 none 0 pW4).1.snake.head? = some ⟨0, 3⟩ := by
  refine ⟨rfl, rfl, ?_⟩
  have h := c4_movement_toroidal [] [] posOracle0 none 0 pW4 ⟨24, 3⟩ [] rfl rfl
  rw [h]
  decide

end Snake

namespace Snake

/-- **C3.** For an alive player on a tick with food present: if the new
head equals the food position, the score grows by exactly the configured
reward (`FOOD_SCORE`) and the snake length by exactly 1; otherwise both
the score and the snake length are unchanged. -/
theorem c3_food_reward (done rest : List Player) (rnd : Nat → Pos) (k : Nat)
    (p : Player) (f : Pos) (hd : Pos) (tl : List Pos)
    (halive : p.alive = true) (hsnake : p.snake = hd :: tl) :
    (nextHead hd p.direction = f →
      (movePlayer done rest rnd (some f) k p).1.score = p.score + FOOD_SCORE ∧
      (movePlayer done rest rnd (some f) k p).1.snake.length = p.snake.length + 1) ∧
    (nextHead hd p.direction ≠ f →
      (movePlayer done rest rnd (some f) k p).1.score = p.score ∧
      (movePlayer done rest rnd (some f) k p).1.snake.length = p.snake.length) := by
  rw [movePlayer_fst_of_alive done rest rnd (some f) k p hd tl halive hsnake]
  constructor
  · intro hf
    rw [if_pos (by rw [hf])]
    simp
  · intro hf
    rw [if_neg (by simpa [eq_comm] using hf)]
    simp [hsnake]

/-- Concrete input for the C3 witness. -/
def pW3 : Player :=
  { id := "w3", name := "P", snake := [⟨5, 5⟩], direction := .right,
    pendingDirection := none, score := 7, color := "c", alive := true }

/-- Witness for C3: eating at `(6,5)` raises the score from 7 to 8 and the
length from 1 to 2; and with the food elsewhere both stay unchanged. -/
theorem c3_food_reward_witness :
    pW3.alive = true ∧ pW3.snake = [⟨5, 5⟩] ∧
      (movePlayer [] [] posOracle0 (some ⟨6, 5⟩) 0 pW3).1.score = pW3.score + FOOD_SCORE ∧
      (movePlayer [] [] posOracle0 (some ⟨6, 5⟩) 0 pW3).1.snake.length = pW3.snake.length + 1 ∧
      (movePlayer [] [] posOracle0 (some ⟨9, 9⟩) 0 pW3).1.score = pW3.score ∧
      (movePlayer [] [] posOracle0 (some ⟨9, 9⟩) 0 pW3).1.snake.length = pW3.snake.length := by
  have h1 := (c3_food_reward [] [] posOracle0 0 pW3 ⟨6, 5⟩ ⟨5, 5⟩ [] rfl rfl).1 (by decide)
  have h2 := (c3_food_reward [] [] posOracle0 0 pW3 ⟨9, 9⟩ ⟨5, 5⟩ [] rfl rfl).2 (by decide)
  exact ⟨rfl, rfl, h1.1, h1.2, h2.1, h2.2⟩

/-- **C6.** An unparseable inbound message (the `none` case: `JSON.parse`
threw and the `catch` swallowed it) or a message of unknown `type` leaves
the whole game state unchanged; the handler is a total function, so the
handling path does not throw. -/
theorem c6_malformed_message_no_effect (st : GameState) (playerId : String)
    (parsed : Option ClientMessage)
    (h : parsed = none ∨ parsed = some .unknown) :
    wsOnMessage parsed playerId st = st := by
  rcases h with h | h <;> rw [h] <;> rfl

/-- Concrete state for the C6 witness. -/
def stW6 : GameState := { players := [pW3], food := none }

/-- Witness for C6 at a concrete state, for both an unparseable payload
and an unknown message type. -/
theorem c6_malformed_message_no_effect_witness :
    wsOnMessage none "w3" stW6 = stW6 ∧
      wsOnMessage (some .unknown) "w3" stW6 = stW6 :=
  ⟨c6_malformed_message_no_effect stW6 "w3" none (Or.inl rfl),
   c6_malformed_message_no_effect stW6 "w3" (some .unknown) (Or.inr rfl)⟩

end Snake

namespace Snake

/-- Concrete input refuting C2: an alive player heading `up` whose
pending heading is `down`, the exact reverse. -/
def pC2 : Player :=
  { id := "a", name := "P", snake := [⟨5, 5⟩], direction := .up,
    pendingDirection := some .down, score := 0, color := "c", alive := true }

/-- World holding `pC2`, with food away from the snake. -/
def stC2 : GameState := { players := [pC2], food := some ⟨0, 0⟩ }

/-- Position oracle for the C2 counterexample (never consulted). -/
def rndC2 : Nat → Pos := fun _ => ⟨0, 0⟩

/-- **C2 is false on the code.**  The tick's direction-commit step has no
reversal check (neither in `src/server.js` nor in `src/unnamed/part_001`):
a stored pending heading that is the exact reverse of the current heading
IS committed, so one tick changes the heading. -/
theorem c2_reversal_committed_counterexample :
    pC2.pendingDirection = some (reverseDir pC2.direction) ∧
      pC2.alive = true ∧
      stC2.players = [pC2] ∧
      (updateGame stC2 rndC2 0 false).players.map Player.direction ≠
        stC2.players.map Player.direction := by
  refine ⟨rfl, rfl, rfl, ?_⟩
  decide

/-- **C2 amended.**  The 180-degree reversal is rejected at the input
boundary instead: a `directionChange` message whose direction is the
exact reverse of a player's current heading leaves that player's record
(in particular its pending heading) unchanged.  Since the heading only
changes at tick commit and the pending buffer is only written by this
handler, a reversed pending heading never arises through the message
interface; the tick itself commits whatever pending heading is stored,
without a reversal check. -/
theorem c2_reversal_rejected_at_input (st : GameState) (playerId : String)
    (d : Direction) (i : Nat) (p : Player)
    (hp : st.players[i]? = some p) (hd : d = reverseDir p.direction) :
    (wsOnMessage (some (.directionChange d)) playerId st).players[i]? = some p := by
  unfold wsOnMessage
  simp only [List.getElem?_map, hp, Option.map_some']
  by_cases hid : p.id = playerId
  · rw [if_pos hid, hd]
    cases p.direction <;> rfl
  · rw [if_neg hid]

/-- Concrete player for the amended-C2 witness. -/
def pW2 : Player :=
  { id := "b", name := "P", snake := [⟨1, 1⟩], direction := .left,
    pendingDirection := none, score := 0, color := "c", alive := true }

/-- Concrete state for the amended-C2 witness. -/
def stW2 : GameState := { players := [pW2], food := none }

/-- Witness for the amended C2: a player heading `left` receives a
`directionChange right` and is unchanged. -/
theorem c2_reversal_rejected_at_input_witness :
    stW2.players[0]? = some pW2 ∧ Direction.right = reverseDir pW2.direction ∧
      (wsOnMessage (some (.directionChange .right)) "b" stW2).players[0]? =
        some pW2 := by
  refine ⟨rfl, rfl, ?_⟩
  exact c2_reversal_rejected_at_input stW2 "b" .right 0 pW2 rfl rfl

end Snake

namespace Snake

lemma mem_allSegments (players : List Player) (s : Segment) :
    s ∈ allSegments players ↔
      ∃ q ∈ players, q.alive = true ∧ ∃ j seg, q.snake[j]? = some seg ∧
        s = { x := seg.x, y := seg.y, playerId := q.id, isHead := j == 0 } := by
  simp only [allSegments, List.mem_flatMap, List.mem_filter, List.mem_map,
    List.mem_enum_iff_getElem?]
  constructor
  · rintro ⟨q, ⟨hq, hqa⟩, ⟨j, seg⟩, hget, hs⟩
    exact ⟨q, hq, hqa, j, seg, hget, hs.symm⟩
  · rintro ⟨q, hq, hqa, j, seg, hget, hs⟩
    exact ⟨q, ⟨hq, hqa⟩, ⟨j, seg⟩, hget, hs.symm⟩

/-- **C1.** Collision resolution marks an alive player dead if and only if
its head cell is covered by a segment of some alive snake that is not the
player's own current head (head = body index 0): self-head overlap is
never fatal, and only alive snakes contribute obstacles. -/
theorem c1_collision_iff (players : List Player) (i : Nat) (p : Player)
    (hp : players[i]? = some p) (halive : p.alive = true)
    (hd : Pos) (tl : List Pos) (hsnake : p.snake = hd :: tl) :
    (checkCollisions players)[i]?.map Player.alive = some false ↔
      ∃ q ∈ players, q.alive = true ∧
        ∃ j, q.snake[j]? = some hd ∧ (q.id ≠ p.id ∨ j ≠ 0) := by
  unfold checkCollisions
  simp only [List.getElem?_map, hp, Option.map_some', Option.some_inj]
  unfold collidePlayer
  rw [hsnake]
  simp only [halive, Bool.not_true, Bool.false_eq_true, if_false]
  have hiff : (allSegments players).any (fun s =>
        s.x == hd.x && s.y == hd.y && (s.playerId != p.id || !s.isHead)) = true ↔
      ∃ q ∈ players, q.alive = true ∧
        ∃ j, q.snake[j]? = some hd ∧ (q.id ≠ p.id ∨ j ≠ 0) := by
    rw [List.any_eq_true]
    constructor
    · rintro ⟨s, hmem, hcond⟩
      rcases (mem_allSegments players s).mp hmem with ⟨q, hq, hqa, j, seg, hget, rfl⟩
      simp only [Bool.and_eq_true, Bool.or_eq_true, beq_iff_eq, bne_iff_ne,
        Bool.not_eq_true'] at hcond
      obtain ⟨⟨hx, hy⟩, hrest⟩ := hcond
      have hseg : seg = hd := by
        cases seg; cases hd; simp_all
      refine ⟨q, hq, hqa, j, by rw [← hseg]; exact hget, ?_⟩
      rcases hrest with h | h
      · exact Or.inl h
      · exact Or.inr (by simpa using h)
    · rintro ⟨q, hq, hqa, j, hget, hcond⟩
      refine ⟨{ x := hd.x, y := hd.y, playerId := q.id, isHead := j == 0 },
        (mem_allSegments players _).mpr ⟨q, hq, hqa, j, hd, hget, rfl⟩, ?_⟩
      simp only [Bool.and_eq_true, Bool.or_eq_true, beq_iff_eq, bne_iff_ne,
        Bool.not_eq_true']
      refine ⟨by simp, ?_⟩
      rcases hcond with h | h
      · exact Or.inl h
      · exact Or.inr (by simpa using h)
  by_cases hany : (allSegments players).any (fun s =>
      s.x == hd.x && s.y == hd.y && (s.playerId != p.id || !s.isHead)) = true
  · rw [if_pos hany]
    simpa using hiff.mp hany
  · rw [if_neg hany]
    constructor
    · intro h
      rw [halive] at h
      simp at h
    · intro h
      exact (hany (hiff.mpr h)).elim

end Snake

namespace Snake

/-- Player A for the C1 witness: head on B's body segment. -/
def pW1A : Player :=
  { id := "A", name := "PA", snake := [⟨2, 2⟩], direction := .up,
    pendingDirection := none, score := 0, color := "c", alive := true }

/-- Player B for the C1 witness: body covers `(2,2)`. -/
def pW1B : Player :=
  { id := "B", name := "PB", snake := [⟨4, 4⟩, ⟨2, 2⟩], direction := .up,
    pendingDirection := none, score := 0, color := "c", alive := true }

/-- Player list for the C1 witness. -/
def playersW1 : List Player := [pW1A, pW1B]

/-- Witness for C1: A's head on a body segment of alive B satisfies the
characterization, and A is indeed marked dead. -/
theorem c1_collision_iff_witness :
    playersW1[0]? = some pW1A ∧ pW1A.alive = true ∧ pW1A.snake = ⟨2, 2⟩ :: [] ∧
      ((checkCollisions playersW1)[0]?.map Player.alive = some false ↔
        ∃ q ∈ playersW1, q.alive = true ∧
          ∃ j, q.snake[j]? = some ⟨2, 2⟩ ∧ (q.id ≠ pW1A.id ∨ j ≠ 0)) ∧
      (checkCollisions playersW1)[0]?.map Player.alive = some false :=
  ⟨rfl, rfl, rfl,
   c1_collision_iff playersW1 0 pW1A rfl rfl ⟨2, 2⟩ [] rfl,
   by decide⟩

lemma foldl_clientView (ex : Option String) :
    ∀ (l : List Player) (acc : List (String × ClientPlayer)),
      l.foldl
        (fun acc p =>
          if some p.id ≠ ex then
            acc ++ [(p.id, { snake := p.snake, color := p.color, alive := p.alive })]
          else acc)
        acc =
      acc ++ l.filterMap (fun p =>
        if some p.id = ex then none
        else some (p.id, { snake := p.snake, color := p.color, alive := p.alive }))
  | [], acc => by simp
  | p :: l, acc => by
    rw [List.foldl_cons, List.filterMap_cons, foldl_clientView ex l]
    by_cases h : some p.id = ex
    · simp [h]
    · simp [h]

/-- **C8.** The client snapshot is exactly the food plus, for every player
other than the optionally excluded one, an entry holding exactly the
snake body, color and alive flag (the `ClientPlayer` record has no other
field); the excluded player is absent. -/
theorem c8_client_snapshot (st : GameState) (ex : Option String) :
    (getClientGameState st ex).food = st.food ∧
    (getClientGameState st ex).players =
      st.players.filterMap (fun p =>
        if some p.id = ex then none
        else some (p.id, { snake := p.snake, color := p.color, alive := p.alive })) ∧
    (∀ e : String × ClientPlayer,
      e ∈ (getClientGameState st ex).players ↔
        ∃ p ∈ st.players, some p.id ≠ ex ∧
          e = (p.id, { snake := p.snake, color := p.color, alive := p.alive })) := by
  have hplayers : (getClientGameState st ex).players =
      st.players.filterMap (fun p =>
        if some p.id = ex then none
        else some (p.id, { snake := p.snake, color := p.color, alive := p.alive })) := by
    show st.players.foldl _ [] = _
    rw [foldl_clientView ex st.players []]
    rfl
  refine ⟨rfl, hplayers, fun e => ?_⟩
  rw [hplayers, List.mem_filterMap]
  constructor
  · rintro ⟨p, hp, hf⟩
    by_cases h : some p.id = ex
    · rw [if_pos h] at hf
      cases hf
    · rw [if_neg h] at hf
      exact ⟨p, hp, h, (Option.some.inj hf).symm⟩
  · rintro ⟨p, hp, h, rfl⟩
    exact ⟨p, hp, by rw [if_neg h]⟩

end Snake

namespace Snake

lemma generateFoodAux_spec (players : List Player) (rnd : Nat → Pos) :
    ∀ (fuel k : Nat), ∃ i ≤ fuel,
      generateFoodAux players rnd k fuel = (rnd (k + i), k + i + 1) ∧
        (∀ j < i, positionOccupied players (rnd (k + j)) = true) ∧
        (positionOccupied players (rnd (k + i)) = false ∨ i = fuel) := by
  intro fuel
  induction fuel with
  | zero =>
    intro k
    exact ⟨0, Nat.le_refl 0, rfl, fun j hj => absurd hj (Nat.not_lt_zero j),
      Or.inr rfl⟩
  | succ fuel ih =>
    intro k
    by_cases hocc : positionOccupied players (rnd k) = true
    · obtain ⟨i, hle, heq, hall, hlast⟩ := ih (k + 1)
      refine ⟨i + 1, Nat.succ_le_succ hle, ?_, ?_, ?_⟩
      · show generateFoodAux players rnd k (fuel + 1) = _
        unfold generateFoodAux
        rw [if_pos hocc, heq]
        have harith : k + 1 + i = k + (i + 1) := by omega
        rw [harith]
      · intro j hj
        cases j with
        | zero => simpa using hocc
        | succ j =>
          have : k + 1 + j = k + (j + 1) := by omega
          rw [← this]
          exact hall j (Nat.lt_of_succ_lt_succ hj)
      · rcases hlast with h | h
        · left
          have : k + 1 + i = k + (i + 1) := by omega
          rw [← this]
          exact h
        · right
          omega
    · refine ⟨0, Nat.zero_le _, ?_, fun j hj => absurd hj (Nat.not_lt_zero j),
        Or.inl (by simpa using hocc)⟩
      show generateFoodAux players rnd k (fuel + 1) = _
      unfold generateFoodAux
      rw [if_neg hocc]
      simp

/-- **C5 amended.**  `generateFood` always terminates: it draws at most
100 candidates from the oracle, rejecting every candidate occupied by a
segment of ANY snake (alive or dead), and when the 100-attempt bound is
exhausted it returns the last candidate regardless of occupancy.  (The
claim's restriction of the occupancy test to living snakes is refuted by
`c5_occupancy_counterexample`.) -/
theorem c5_generateFood_bounded (players : List Player) (rnd : Nat → Pos)
    (k : Nat) :
    ∃ i ≤ 99, generateFood players rnd k = (rnd (k + i), k + i + 1) ∧
      (∀ j < i, positionOccupied players (rnd (k + j)) = true) ∧
      (positionOccupied players (rnd (k + i)) = false ∨ i = 99) :=
  generateFoodAux_spec players rnd 99 k

/-- Dead player whose frozen snake covers the first food candidate. -/
def deadPW5 : Player :=
  { id := "d", name := "P", snake := [⟨0, 0⟩], direction := .up,
    pendingDirection := none, score := 0, color := "c", alive := false }

/-- Candidate oracle for the C5 counterexample: first candidate `(0,0)`
(under the dead snake), every later candidate `(1,1)` (free). -/
def candW5 : Nat → Pos := fun n => if n = 0 then ⟨0, 0⟩ else ⟨1, 1⟩

/-- **C5 as stated is false on the code.**  The occupancy test of
`generateFood` counts every snake, not only living ones: with a single
DEAD snake on `(0,0)`, the first candidate `(0,0)` is occupied by no
living snake, yet the implementation rejects it and returns the second
candidate `(1,1)`, while the claim's living-snakes-only generator
(`generateFoodClaim`) returns `(0,0)`. -/
theorem c5_occupancy_counterexample :
    deadPW5.alive = false ∧ candW5 0 = ⟨0, 0⟩ ∧
      positionOccupiedAliveOnly [deadPW5] (candW5 0) = false ∧
      (generateFood [deadPW5] candW5 0).1 = ⟨1, 1⟩ ∧
      (generateFoodClaim [deadPW5] candW5 0).1 = ⟨0, 0⟩ ∧
      (generateFood [deadPW5] candW5 0).1 ≠ (generateFoodClaim [deadPW5] candW5 0).1 := by
  refine ⟨rfl, rfl, by decide, by decide, by decide, by decide⟩

end Snake

namespace Snake

/-- The per-player facts about one movement step that the tick-level
claims need: a dead player is returned untouched, the score never
decreases, a nonempty snake stays nonempty, and the identity fields are
preserved. -/
def stepRel (p q : Player) : Prop :=
  (p.alive = false → q = p) ∧ p.score ≤ q.score ∧
    (p.snake ≠ [] → q.snake ≠ []) ∧ q.id = p.id ∧ q.alive = p.alive

lemma movePlayer_stepRel (done rest : List Player) (rnd : Nat → Pos)
    (food : Option Pos) (k : Nat) (p : Player) :
    stepRel p (movePlayer done rest rnd food k p).1 := by
  cases halive : p.alive with
  | false =>
    rw [movePlayer_fst_of_not_alive done rest rnd food k p halive]
    exact ⟨fun _ => rfl, Nat.le_refl _, fun h => h, rfl, rfl⟩
  | true =>
    cases hsnake : p.snake with
    | nil =>
      have : (movePlayer done rest rnd food k p).1 = p := by
        unfold movePlayer
        rw [hsnake]
        simp [halive]
      rw [this]
      exact ⟨fun _ => rfl, Nat.le_refl _, fun h => h, rfl, rfl⟩
    | cons hd tl =>
      rw [movePlayer_fst_of_alive done rest rnd food k p hd tl halive hsnake]
      split
      · refine ⟨fun h => ?_, Nat.le_add_right _ _, fun _ => by simp, rfl, rfl⟩
        rw [halive] at h
        cases h
      · refine ⟨fun h => ?_, Nat.le_refl _, fun _ => ?_, rfl, rfl⟩
        · rw [halive] at h
          cases h
        · have hlen : ((nextHead hd p.direction :: p.snake).dropLast).length =
              p.snake.length := by
            rw [List.length_dropLast, List.length_cons]
            omega
          have hpos : 0 < ((nextHead hd p.direction :: p.snake).dropLast).length := by
            rw [hlen, hsnake]
            exact Nat.succ_pos _
          exact List.ne_nil_of_length_pos hpos

lemma moveAll_spec (rnd : Nat → Pos) :
    ∀ (rest done : List Player) (food : Option Pos) (k : Nat),
      ∃ s, (moveAll rnd done rest food k).1 = done ++ s ∧
        List.Forall₂ stepRel rest s
  | [], done, food, k => ⟨[], by simp [moveAll], List.Forall₂.nil⟩
  | p :: rest, done, food, k => by
    obtain ⟨s, hs, hf⟩ :=
      moveAll_spec rnd rest (done ++ [(movePlayer done rest rnd food k p).1])
        (movePlayer done rest rnd food k p).2.1
        (movePlayer done rest rnd food k p).2.2
    refine ⟨(movePlayer done rest rnd food k p).1 :: s, ?_,
      List.Forall₂.cons (movePlayer_stepRel done rest rnd food k p) hf⟩
    show (moveAll rnd (done ++ [(movePlayer done rest rnd food k p).1]) rest
        (movePlayer done rest rnd food k p).2.1
        (movePlayer done rest rnd food k p).2.2).1 = _
    rw [hs, List.append_assoc]
    rfl

lemma forall₂_getElem?_left {α β : Type} {R : α → β → Prop} :
    ∀ {l : List α} {s : List β}, List.Forall₂ R l s →
      ∀ {i : Nat} {a : α}, l[i]? = some a → ∃ b, s[i]? = some b ∧ R a b := by
  intro l s h
  induction h with
  | nil =>
    intro i a ha
    simp at ha
  | cons hR _ ihF =>
    intro i a ha
    cases i with
    | zero =>
      rw [List.getElem?_cons_zero] at ha
      exact ⟨_, List.getElem?_cons_zero, (Option.some.inj ha) ▸ hR⟩
    | succ i =>
      rw [List.getElem?_cons_succ] at ha
      obtain ⟨b, hb, hRb⟩ := ihF ha
      exact ⟨b, by rw [List.getElem?_cons_succ]; exact hb, hRb⟩

lemma forall₂_getElem?_right {α β : Type} {R : α → β → Prop} :
    ∀ {l : List α} {s : List β}, List.Forall₂ R l s →
      ∀ {i : Nat} {b : β}, s[i]? = some b → ∃ a, l[i]? = some a ∧ R a b := by
  intro l s h
  induction h with
  | nil =>
    intro i b hb
    simp at hb
  | cons hR _ ihF =>
    intro i b hb
    cases i with
    | zero =>
      rw [List.getElem?_cons_zero] at hb
      exact ⟨_, List.getElem?_cons_zero, (Option.some.inj hb) ▸ hR⟩
    | succ i =>
      rw [List.getElem?_cons_succ] at hb
      obtain ⟨a, ha, hRa⟩ := ihF hb
      exact ⟨a, by rw [List.getElem?_cons_succ]; exact ha, hRa⟩

lemma commitDirections_props (players : List Player) (i : Nat) (p : Player)
    (hp : players[i]? = some p) :
    ∃ q, (commitDirections players)[i]? = some q ∧ q.snake = p.snake ∧
      q.score = p.score ∧ q.alive = p.alive ∧ q.id = p.id ∧
      (p.alive = false → q = p) := by
  unfold commitDirections
  simp only [List.getElem?_map, hp, Option.map_some']
  refine ⟨_, rfl, ?_⟩
  cases hpd : p.pendingDirection with
  | none => exact ⟨rfl, rfl, rfl, rfl, fun _ => rfl⟩
  | some d =>
    cases halive : p.alive with
    | false => simp [halive]
    | true => simp [halive]

lemma collidePlayer_of_not_alive (segs : List Segment) (p : Player)
    (h : p.alive = false) : collidePlayer segs p = p := by
  unfold collidePlayer
  simp [h]

lemma collidePlayer_props (segs : List Segment) (p : Player) :
    (collidePlayer segs p).snake = p.snake ∧
      (collidePlayer segs p).score = p.score ∧
      (collidePlayer segs p).id = p.id ∧
      (p.alive = false → collidePlayer segs p = p) := by
  refine ⟨?_, ?_, ?_, collidePlayer_of_not_alive segs p⟩ <;>
    · unfold collidePlayer
      split
      · rfl
      · split
        · rfl
        · split <;> rfl

end Snake

namespace Snake

/-- **C7.** A tick leaves a dead player's record entirely unchanged: the
frozen snake does not move and every field keeps its value, so the
corpse stays in the world at its index until the connection closes. -/
theorem c7_dead_player_frozen (st : GameState) (rnd : Nat → Pos) (k : Nat)
    (refresh : Bool) (i : Nat) (p : Player)
    (hp : st.players[i]? = some p) (hdead : p.alive = false) :
    (updateGame st rnd k refresh).players[i]? = some p := by
  obtain ⟨q, hq, _, _, _, _, hqeq⟩ := commitDirections_props st.players i p hp
  rw [hqeq hdead] at hq
  obtain ⟨s, hs, hf⟩ := moveAll_spec rnd (commitDirections st.players) [] st.food k
  obtain ⟨b, hb, hrel⟩ := forall₂_getElem?_left hf hq
  have hbp : b = p := hrel.1 hdead
  subst hbp
  simp only [updateGame]
  unfold checkCollisions
  rw [List.getElem?_map, hs, List.nil_append, hb, Option.map_some']
  rw [(collidePlayer_props (allSegments s) b).2.2.2 hdead]

/-- Concrete dead player for the C7 witness. -/
def deadPW7 : Player :=
  { id := "z", name := "P", snake := [⟨7, 7⟩, ⟨7, 8⟩], direction := .up,
    pendingDirection := some .left, score := 4, color := "c", alive := false }

/-- Concrete state for the C7 witness. -/
def stW7 : GameState := { players := [deadPW7], food := some ⟨3, 3⟩ }

/-- Witness for C7: the dead player is bit-for-bit unchanged by a tick. -/
theorem c7_dead_player_frozen_witness :
    stW7.players[0]? = some deadPW7 ∧ deadPW7.alive = false ∧
      (updateGame stW7 posOracle0 0 false).players[0]? = some deadPW7 :=
  ⟨rfl, rfl, c7_dead_player_frozen stW7 posOracle0 0 false 0 deadPW7 rfl rfl⟩

/-- **C10.** A player's score is monotone: a tick never decreases it, the
message handler never changes it, and collision resolution (which is
what marks players dead) preserves it exactly. -/
theorem c10_score_monotone (st : GameState) (rnd : Nat → Pos) (k : Nat)
    (refresh : Bool) (i : Nat) (p : Player) (hp : st.players[i]? = some p) :
    (∀ p', (updateGame st rnd k refresh).players[i]? = some p' →
      p.score ≤ p'.score) ∧
    (∀ parsed pid p', (wsOnMessage parsed pid st).players[i]? = some p' →
      p'.score = p.score) ∧
    (∀ (qs : List Player) (j : Nat) (q q' : Player), qs[j]? = some q →
      (checkCollisions qs)[j]? = some q' → q'.score = q.score) := by
  refine ⟨?_, ?_, ?_⟩
  · intro p' hp'
    obtain ⟨q, hq, _, hqscore, _, _, _⟩ := commitDirections_props st.players i p hp
    obtain ⟨s, hs, hf⟩ := moveAll_spec rnd (commitDirections st.players) [] st.food k
    obtain ⟨b, hb, hrel⟩ := forall₂_getElem?_left hf hq
    simp only [updateGame] at hp'
    unfold checkCollisions at hp'
    rw [List.getElem?_map, hs, List.nil_append, hb, Option.map_some'] at hp'
    rw [← Option.some.inj hp', (collidePlayer_props (allSegments s) b).2.1]
    calc p.score = q.score := hqscore.symm
      _ ≤ b.score := hrel.2.1
  · intro parsed pid p' hp'
    cases parsed with
    | none =>
      rw [show wsOnMessage none pid st = st from rfl, hp] at hp'
      rw [← Option.some.inj hp']
    | some msg =>
      cases msg with
      | directionChange d =>
        unfold wsOnMessage at hp'
        simp only [List.getElem?_map, hp, Option.map_some'] at hp'
        split_ifs at hp' <;> rw [← Option.some.inj hp']
      | setName n =>
        unfold wsOnMessage at hp'
        simp only [List.getElem?_map, hp, Option.map_some'] at hp'
        split_ifs at hp' <;> rw [← Option.some.inj hp']
      | unknown =>
        rw [show wsOnMessage (some .unknown) pid st = st from rfl, hp] at hp'
        rw [← Option.some.inj hp']
  · intro qs j q q' hq hq'
    unfold checkCollisions at hq'
    rw [List.getElem?_map, hq, Option.map_some'] at hq'
    rw [← Option.some.inj hq']
    exact (collidePlayer_props _ q).2.1

end Snake

namespace Snake

/-- Concrete player for the C10 witness: about to die on its own body. -/
def pW10 : Player :=
  { id := "m", name := "P", snake := [⟨5, 5⟩, ⟨6, 5⟩, ⟨6, 6⟩, ⟨5, 6⟩], direction := .down,
    pendingDirection := none, score := 3, color := "c", alive := true }

/-- Concrete state for the C10 witness. -/
def stW10 : GameState := { players := [pW10], food := some ⟨20, 20⟩ }

/-- Witness for C10: after a tick the score has not decreased, and the
player marked dead by collision resolution keeps its score. -/
theorem c10_score_monotone_witness :
    stW10.players[0]? = some pW10 ∧
      (∃ p', (updateGame stW10 posOracle0 0 false).players[0]? = some p' ∧
        pW10.score ≤ p'.score) ∧
      (∃ q', (checkCollisions stW10.players)[0]? = some q' ∧
        q'.score = pW10.score) := by
  have h := c10_score_monotone stW10 posOracle0 0 false 0 pW10 rfl
  refine ⟨rfl, ?_, ?_⟩
  · have hsome : ((updateGame stW10 posOracle0 0 false).players[0]?).isSome = true := by
      decide
    obtain ⟨p', hp'⟩ := Option.isSome_iff_exists.mp hsome
    exact ⟨p', hp', h.1 p' hp'⟩
  · have hsome : ((checkCollisions stW10.players)[0]?).isSome = true := by decide
    obtain ⟨q', hq'⟩ := Option.isSome_iff_exists.mp hsome
    exact ⟨q', hq', h.2.2 stW10.players 0 pW10 q' rfl hq'⟩

/-- **C9.** Every snake has length at least 1 and every operation
preserves this: player creation starts with a single-cell snake, and
both a full tick (direction commit, movement, food resolution, collision
resolution) and any inbound message keep every snake nonempty. -/
theorem c9_snake_length_invariant (st : GameState) (rnd : Nat → Pos) (k : Nat)
    (refresh : Bool) (hinv : ∀ p ∈ st.players, 1 ≤ p.snake.length) :
    (∀ pid nm pos dir col, 1 ≤ (initPlayer pid nm pos dir col).snake.length) ∧
    (∀ p' ∈ (updateGame st rnd k refresh).players, 1 ≤ p'.snake.length) ∧
    (∀ parsed pid p', p' ∈ (wsOnMessage parsed pid st).players →
      1 ≤ p'.snake.length) := by
  refine ⟨fun _ _ _ _ _ => Nat.le_refl 1, ?_, ?_⟩
  · intro p' hp'
    simp only [updateGame] at hp'
    unfold checkCollisions at hp'
    rw [List.mem_map] at hp'
    obtain ⟨b, hbmem, hbeq⟩ := hp'
    obtain ⟨s, hs, hf⟩ := moveAll_spec rnd (commitDirections st.players) [] st.food k
    rw [hs, List.nil_append] at hbmem
    obtain ⟨j, hj⟩ := List.mem_iff_getElem?.mp hbmem
    obtain ⟨a, ha, harel⟩ := forall₂_getElem?_right hf hj
    have h0 : ∃ a0, st.players[j]? = some a0 := by
      unfold commitDirections at ha
      rw [List.getElem?_map] at ha
      cases h : st.players[j]? with
      | none => rw [h] at ha; cases ha
      | some a0 => exact ⟨a0, rfl⟩
    obtain ⟨a0, ha0get⟩ := h0
    obtain ⟨q, hqget, hqsnake, _, _, _, _⟩ := commitDirections_props st.players j a0 ha0get
    have hqa : q = a := by
      rw [hqget] at ha
      exact Option.some.inj ha
    have ha0mem : a0 ∈ st.players := List.mem_iff_getElem?.mpr ⟨j, ha0get⟩
    have h1 : 1 ≤ a0.snake.length := hinv a0 ha0mem
    have h2 : a.snake ≠ [] := by
      rw [← hqa, hqsnake]
      exact List.ne_nil_of_length_pos h1
    have h3 : b.snake ≠ [] := harel.2.2.1 h2
    rw [← hbeq, (collidePlayer_props _ b).1]
    exact List.length_pos.mpr h3
  · intro parsed pid p' hp'
    cases parsed with
    | none => exact hinv p' hp'
    | some msg =>
      cases msg with
      | directionChange d =>
        unfold wsOnMessage at hp'
        rw [List.mem_map] at hp'
        obtain ⟨p0, hp0, hfeq⟩ := hp'
        rw [← hfeq]
        by_cases h1 : p0.id = pid
        · rw [if_pos h1]
          change 1 ≤ (if (!(p0.direction == Direction.up && d == Direction.down) &&
              !(p0.direction == Direction.down && d == Direction.up) &&
              !(p0.direction == Direction.left && d == Direction.right) &&
              !(p0.direction == Direction.right && d == Direction.left)) = true then
            { p0 with pendingDirection := some d } else p0).snake.length
          split <;> exact hinv p0 hp0
        · rw [if_neg h1]
          exact hinv p0 hp0
      | setName n =>
        unfold wsOnMessage at hp'
        rw [List.mem_map] at hp'
        obtain ⟨p0, hp0, hfeq⟩ := hp'
        rw [← hfeq]
        split_ifs <;> exact hinv p0 hp0
      | unknown => exact hinv p' hp'

/-- Concrete player for the C9 witness. -/
def pW9 : Player :=
  { id := "n", name := "P", snake := [⟨2, 2⟩], direction := .right,
    pendingDirection := none, score := 0, color := "c", alive := true }

/-- Concrete state for the C9 witness. -/
def stW9 : GameState := { players := [pW9], food := none }

/-- Witness for C9 at a concrete state (food absent, so the tick also
exercises the food-regeneration step). -/
theorem c9_snake_length_invariant_witness :
    (∀ p ∈ stW9.players, 1 ≤ p.snake.length) ∧
      (∀ p' ∈ (updateGame stW9 posOracle0 0 false).players, 1 ≤ p'.snake.length) ∧
      (∀ p' ∈ (wsOnMessage (some (.setName "xyz")) "n" stW9).players,
        1 ≤ p'.snake.length) := by
  have h := c9_snake_length_invariant stW9 posOracle0 0 false (by decide)
  exact ⟨by decide, h.2.1, fun p' hp' => h.2.2 (some (.setName "xyz")) "n" p' hp'⟩

end Snake
